import Mathlib

/-!
Verification development for the expense-monitor import/normalization
pipeline and budget-projection engine.

The definitions below are a shallow embedding of the Python source:
  * `advanced_importer.py` — `AdvancedExcelParser.parse` (table segmentation),
    `_extract_table`, `_map_columns`, `process_file`;
  * `importer.py` — `GenericParser.parse` (header scan limited to 10 rows),
    `categorize_expenses` (batching, retry/backoff);
  * `db.py` — `get_cached_category` / `cache_category` (INSERT OR REPLACE on
    PRIMARY KEY (user_id, description));
  * `logic.py` — `get_projection_status`, `get_monthly_summary`.

Pandas cells are modelled as `Option String` (`none` = NaN; `astype(str)`
renders NaN as "nan").  Numeric amounts are modelled as exact rationals.
-/

/-! ## Basic string utilities (substring test, trim, split, lowering) -/

/-- `headMatch k s` is true when the char list `k` is an initial run of `s`
(the building block of Python's `k in val` substring test). -/
def headMatch : List Char → List Char → Bool
  | [], _ => true
  | _ :: _, [] => false
  | a :: as, b :: bs => a == b && headMatch as bs

/-- `subMatch k s`: the char list `k` occurs contiguously inside `s`. -/
def subMatch (k : List Char) : List Char → Bool
  | [] => k.isEmpty
  | c :: cs => headMatch k (c :: cs) || subMatch k cs

/-- Python's `k in val` substring containment on strings. -/
def kwIn (k s : String) : Bool := subMatch k.toList s.toList

/-- Whitespace recognised by `str.strip()` (the forms appearing in the data). -/
def isWsChar (c : Char) : Bool := c == ' ' || c == '\t' || c == '\n' || c == '\r'

/-- Python `str.strip()` on a char list. -/
def trimChars (l : List Char) : List Char :=
  ((l.dropWhile isWsChar).reverse.dropWhile isWsChar).reverse

/-- `str.strip()` on strings. -/
def strTrim (s : String) : String := ⟨trimChars s.toList⟩

/-- Split a char list on a separator character (every occurrence splits). -/
def splitOnChar (sep : Char) : List Char → List (List Char)
  | [] => [[]]
  | c :: cs =>
    let r := splitOnChar sep cs
    if c == sep then [] :: r
    else
      match r with
      | [] => [[c]]
      | g :: gs => (c :: g) :: gs

/-- Python `str.lower()` (ASCII case folding; Hebrew has no case). -/
def strLower (s : String) : String := ⟨s.toList.map Char.toLower⟩

/-! ## Raw grid cells

A raw pandas cell read with `header=None`: `none` models NaN/blank.
`.astype(str)` renders NaN as the string "nan". -/

/-- A raw spreadsheet cell (`none` = NaN/blank). -/
abbrev Cell := Option String

/-- `astype(str)` on a cell: NaN prints as "nan". -/
def cellStr : Cell → String
  | none => "nan"
  | some s => s

/-- A cell rendered through `.astype(str).str.strip()`. -/
def cellTrim (c : Cell) : String := strTrim (cellStr c)

/-! ## TableSegmenter (`AdvancedExcelParser.parse`, advanced_importer.py 28-50) -/

/-- The fixed header keyword list of `AdvancedExcelParser.parse`. -/
def segKeywords : List String :=
  ["תאריך", "שם בית עסק", "סכום", "חיוב", "פרטים", "תיאור",
   "date", "amount", "description"]

/-- `match_count` of a row: cells whose stripped string rendering contains at
least one keyword; each cell contributes at most once. -/
def matchCount (row : List Cell) : Nat :=
  row.countP (fun c => segKeywords.any (fun k => kwIn k (cellTrim c)))

/-- A row qualifies as a header row when at least 2 cells match. -/
def rowQualifies (row : List Cell) : Bool := decide (2 ≤ matchCount row)

/-- Indices (offset by `i`) of the qualifying header rows of a grid. -/
def headerIdxsAux : List (List Cell) → Nat → List Nat
  | [], _ => []
  | row :: rest, i =>
    if rowQualifies row then i :: headerIdxsAux rest (i + 1)
    else headerIdxsAux rest (i + 1)

/-- Indices of the qualifying header rows of a grid. -/
def headerIdxs (grid : List (List Cell)) : List Nat := headerIdxsAux grid 0

/-- The header scan loop of `AdvancedExcelParser.parse`: `i` is the index of
the next row, `cur` the currently open header index (`current_header_idx`).
Each qualifying row closes the open segment (exclusive) and opens a new one;
the final open segment closes at the end of the grid. -/
def segmentsAux : List (List Cell) → Nat → Option Nat → List (Nat × Nat)
  | [], i, cur =>
    match cur with
    | none => []
    | some h => [(h, i)]
  | row :: rest, i, cur =>
    if rowQualifies row then
      match cur with
      | none => segmentsAux rest (i + 1) (some i)
      | some h => (h, i) :: segmentsAux rest (i + 1) (some i)
    else segmentsAux rest (i + 1) cur

/-- The table segments (header row index, exclusive end row) detected by
`AdvancedExcelParser.parse`. -/
def segmentGrid (grid : List (List Cell)) : List (Nat × Nat) :=
  segmentsAux grid 0 none

/-- Pair each header index with the following header index, the last one with
`n`: the row ranges the scan loop produces. -/
def pairSegs : List Nat → Nat → List (Nat × Nat)
  | [], _ => []
  | [h], n => [(h, n)]
  | h :: h2 :: t, n => (h, h2) :: pairSegs (h2 :: t) n

/-! ### Segmentation lemmas -/

theorem headerIdxsAux_mem {g : List (List Cell)} :
    ∀ {i x : Nat}, x ∈ headerIdxsAux g i → i ≤ x ∧ x < i + g.length := by
  induction g with
  | nil => intro i x hx; simp [headerIdxsAux] at hx
  | cons row rest ih =>
    intro i x hx
    by_cases h : rowQualifies row = true
    · simp [headerIdxsAux, h] at hx
      rcases hx with rfl | hx
      · simp only [List.length_cons]; omega
      · have := ih hx
        simp only [List.length_cons]
        omega
    · simp [headerIdxsAux, h] at hx
      have := ih hx
      simp only [List.length_cons]
      omega

theorem headerIdxsAux_chain (g : List (List Cell)) :
    ∀ i, List.Chain' (· < ·) (headerIdxsAux g i) := by
  induction g with
  | nil => intro i; simp [headerIdxsAux]
  | cons row rest ih =>
    intro i
    by_cases h : rowQualifies row = true
    · simp only [headerIdxsAux, h, if_true]
      rcases hrest : headerIdxsAux rest (i + 1) with _ | ⟨x, t⟩
      · simp
      · rw [List.chain'_cons]
        refine ⟨?_, hrest ▸ ih (i + 1)⟩
        have hx : x ∈ headerIdxsAux rest (i + 1) := by rw [hrest]; exact List.mem_cons_self _ _
        have := headerIdxsAux_mem hx
        omega
    · simp only [headerIdxsAux, h, if_false]
      exact ih (i + 1)

theorem headerIdxsAux_eq_nil {g : List (List Cell)} :
    ∀ {i}, headerIdxsAux g i = [] ↔ ∀ row ∈ g, rowQualifies row = false := by
  induction g with
  | nil => intro i; simp [headerIdxsAux]
  | cons row rest ih =>
    intro i
    by_cases h : rowQualifies row = true
    · simp [headerIdxsAux, h]
    · simp [headerIdxsAux, h, ih, Bool.eq_false_iff.mpr h]

theorem headerIdxsAux_qualifies {g : List (List Cell)} :
    ∀ {i x : Nat}, x ∈ headerIdxsAux g i → rowQualifies (g.getD (x - i) []) = true := by
  induction g with
  | nil => intro i x hx; simp [headerIdxsAux] at hx
  | cons row rest ih =>
    intro i x hx
    by_cases h : rowQualifies row = true
    · simp [headerIdxsAux, h] at hx
      rcases hx with rfl | hx
      · simpa using h
      · have hb := headerIdxsAux_mem hx
        have hxi : x - i = (x - (i + 1)) + 1 := by omega
        rw [hxi]
        simpa using ih hx
    · simp [headerIdxsAux, h] at hx
      have hb := headerIdxsAux_mem hx
      have hxi : x - i = (x - (i + 1)) + 1 := by omega
      rw [hxi]
      simpa using ih hx

theorem segmentsAux_some (g : List (List Cell)) :
    ∀ i h, segmentsAux g i (some h) = pairSegs (h :: headerIdxsAux g i) (i + g.length) := by
  induction g with
  | nil => intro i h; simp [segmentsAux, headerIdxsAux, pairSegs]
  | cons row rest ih =>
    intro i h
    by_cases hq : rowQualifies row = true
    · simp only [segmentsAux, hq, if_true, headerIdxsAux]
      rw [ih (i + 1) i]
      simp only [pairSegs, List.length_cons]
      have : i + 1 + rest.length = i + (rest.length + 1) := by omega
      rw [this]
    · rw [Bool.not_eq_true] at hq
      simp only [segmentsAux, hq, Bool.false_eq_true, if_false, headerIdxsAux]
      rw [ih (i + 1) h]
      simp only [List.length_cons]
      have : i + 1 + rest.length = i + (rest.length + 1) := by omega
      rw [this]

theorem segmentsAux_none (g : List (List Cell)) :
    ∀ i, segmentsAux g i none = pairSegs (headerIdxsAux g i) (i + g.length) := by
  induction g with
  | nil => intro i; simp [segmentsAux, headerIdxsAux, pairSegs]
  | cons row rest ih =>
    intro i
    by_cases hq : rowQualifies row = true
    · simp only [segmentsAux, hq, if_true, headerIdxsAux]
      rw [segmentsAux_some rest (i + 1) i]
      simp only [List.length_cons]
      have : i + 1 + rest.length = i + (rest.length + 1) := by omega
      rw [this]
    · rw [Bool.not_eq_true] at hq
      simp only [segmentsAux, hq, Bool.false_eq_true, if_false, headerIdxsAux]
      rw [ih (i + 1)]
      simp only [List.length_cons]
      have : i + 1 + rest.length = i + (rest.length + 1) := by omega
      rw [this]

/-- Characterization: the scan loop's segments pair consecutive qualifying
header indices, the last one extending to the grid's end. -/
theorem segmentGrid_eq (grid : List (List Cell)) :
    segmentGrid grid = pairSegs (headerIdxs grid) grid.length := by
  have := segmentsAux_none grid 0
  simpa [segmentGrid, headerIdxs] using this

theorem pairSegs_map_fst (hs : List Nat) (n : Nat) :
    (pairSegs hs n).map Prod.fst = hs := by
  induction hs with
  | nil => simp [pairSegs]
  | cons h t ih =>
    cases t with
    | nil => simp [pairSegs]
    | cons h2 t2 => simpa [pairSegs] using ih

theorem pairSegs_chain_eq (hs : List Nat) (n : Nat) :
    List.Chain' (fun s t => s.2 = t.1) (pairSegs hs n) := by
  induction hs with
  | nil => simp [pairSegs]
  | cons h t ih =>
    cases t with
    | nil => simp [pairSegs]
    | cons h2 t2 =>
      cases t2 with
      | nil => simp [pairSegs, List.chain'_cons]
      | cons h3 t3 =>
        simp only [pairSegs] at ih ⊢
        rw [List.chain'_cons]
        exact ⟨rfl, ih⟩

theorem pairSegs_bounds (hs : List Nat) (n : Nat)
    (hchain : List.Chain' (· < ·) hs) (hub : ∀ x ∈ hs, x < n) :
    ∀ s ∈ pairSegs hs n, s.1 < s.2 ∧ s.2 ≤ n := by
  induction hs with
  | nil => simp [pairSegs]
  | cons h t ih =>
    cases t with
    | nil =>
      intro s hs'
      simp [pairSegs] at hs'
      subst hs'
      exact ⟨hub h (by simp), le_refl n⟩
    | cons h2 t2 =>
      intro s hs'
      simp only [pairSegs, List.mem_cons] at hs'
      rcases hs' with rfl | hs'
      · refine ⟨(List.chain'_cons.mp hchain).1, ?_⟩
        exact le_of_lt (hub h2 (by simp))
      · exact ih (List.chain'_cons.mp hchain).2 (fun x hx => hub x (List.mem_cons_of_mem _ hx)) s hs'

theorem pairSegs_getLast (hs : List Nat) (n : Nat) (hne : hs ≠ []) :
    ∃ x, x ∈ hs ∧ (pairSegs hs n).getLast? = some (x, n) := by
  induction hs with
  | nil => exact absurd rfl hne
  | cons h t ih =>
    cases t with
    | nil => exact ⟨h, by simp, by simp [pairSegs]⟩
    | cons h2 t2 =>
      obtain ⟨x, hx, hlast⟩ := ih (by simp)
      refine ⟨x, List.mem_cons_of_mem _ hx, ?_⟩
      rw [← hlast]
      cases t2 with
      | nil =>
        simp only [pairSegs]
        rw [List.getLast?_cons_cons]
      | cons h3 t3 =>
        simp only [pairSegs]
        rw [List.getLast?_cons_cons]

theorem pairSegs_head (hs : List Nat) (n : Nat) :
    (pairSegs hs n).head?.map Prod.fst = hs.head? := by
  cases hs with
  | nil => simp [pairSegs]
  | cons h t => cases t <;> simp [pairSegs]

/-! ### Claim C2 -/

/-- Claim C2: for every grid with at least one row in which at least 2 cells
contain a header keyword (each cell counted at most once), segmentation
returns a non-empty list of segments that are contiguous, ordered,
non-overlapping, and cover from the first qualifying header row to the grid's
end; each qualifying row after an open segment closes the prior segment
(exclusive end) and opens a new one (the segment starts are exactly the
qualifying row indices). -/
theorem c2_segments_cover (grid : List (List Cell))
    (hq : ∃ row ∈ grid, rowQualifies row = true) :
    segmentGrid grid ≠ [] ∧
    (segmentGrid grid).map Prod.fst = headerIdxs grid ∧
    List.Chain' (fun s t => s.2 = t.1) (segmentGrid grid) ∧
    List.Chain' (fun s t => s.1 < t.1) (segmentGrid grid) ∧
    (∀ s ∈ segmentGrid grid, s.1 < s.2 ∧ s.2 ≤ grid.length ∧
        rowQualifies (grid.getD s.1 []) = true) ∧
    (segmentGrid grid).head?.map Prod.fst = (headerIdxs grid).head? ∧
    ∃ l, (segmentGrid grid).getLast? = some l ∧ l.2 = grid.length := by
  have hne : headerIdxs grid ≠ [] := by
    intro hnil
    obtain ⟨row, hrow, hqr⟩ := hq
    have := (headerIdxsAux_eq_nil.mp hnil) row hrow
    rw [this] at hqr
    exact Bool.false_ne_true hqr
  have hchain : List.Chain' (· < ·) (headerIdxs grid) := headerIdxsAux_chain grid 0
  have hub : ∀ x ∈ headerIdxs grid, x < grid.length := by
    intro x hx
    simpa using (headerIdxsAux_mem hx).2
  rw [segmentGrid_eq]
  refine ⟨?_, pairSegs_map_fst _ _, pairSegs_chain_eq _ _, ?_, ?_, ?_, ?_⟩
  · intro hemp
    apply hne
    rw [← pairSegs_map_fst (headerIdxs grid) grid.length, hemp]
    rfl
  · have h2 := hchain
    rw [← pairSegs_map_fst (headerIdxs grid) grid.length] at h2
    exact (List.chain'_map Prod.fst).mp h2
  · intro s hs
    have hb := pairSegs_bounds (headerIdxs grid) grid.length hchain hub s hs
    refine ⟨hb.1, hb.2, ?_⟩
    have hmem : s.1 ∈ headerIdxs grid := by
      rw [← pairSegs_map_fst (headerIdxs grid) grid.length]
      exact List.mem_map_of_mem Prod.fst hs
    simpa using headerIdxsAux_qualifies hmem
  · exact pairSegs_head _ _
  · obtain ⟨x, _, hlast⟩ := pairSegs_getLast (headerIdxs grid) grid.length hne
    exact ⟨(x, grid.length), hlast, rfl⟩

/-- Concrete grid for the claim C2 witness: a header row, a data row, a second
header row, and a trailing junk row. -/
def c2grid : List (List Cell) :=
  [[some "date", some "amount"],
   [some "01.01.26", some "5"],
   [some "date x", some "amount y"],
   [some "junk"]]

/-- Witness for claim C2: the hypothesis holds on `c2grid` and the theorem
applies there. -/
theorem c2_segments_cover_witness :
    (∃ row ∈ c2grid, rowQualifies row = true) ∧
    (segmentGrid c2grid ≠ [] ∧
     (segmentGrid c2grid).map Prod.fst = headerIdxs c2grid ∧
     List.Chain' (fun s t => s.2 = t.1) (segmentGrid c2grid) ∧
     List.Chain' (fun s t => s.1 < t.1) (segmentGrid c2grid) ∧
     (∀ s ∈ segmentGrid c2grid, s.1 < s.2 ∧ s.2 ≤ c2grid.length ∧
         rowQualifies (c2grid.getD s.1 []) = true) ∧
     (segmentGrid c2grid).head?.map Prod.fst = (headerIdxs c2grid).head? ∧
     ∃ l, (segmentGrid c2grid).getLast? = some l ∧ l.2 = c2grid.length) := by
  have h : ∃ row ∈ c2grid, rowQualifies row = true := by decide
  exact ⟨h, c2_segments_cover c2grid h⟩

/-! ## TransactionExtractor (`_extract_table` / `_map_columns`,
advanced_importer.py 60-127) -/

/-- Digit run to a natural number. -/
def digitsVal (l : List Char) : Nat :=
  l.foldl (fun n c => n * 10 + (c.toNat - 48)) 0

/-- Every character is an ASCII digit. -/
def allDigits (l : List Char) : Bool := l.all Char.isDigit

/-- Optional leading sign of a decimal literal: (negative?, remaining chars). -/
def signOf (l : List Char) : Bool × List Char :=
  match l with
  | '-' :: rest => (true, rest)
  | '+' :: rest => (false, rest)
  | _ => (false, l)

/-- Lexical scan of an unsigned decimal literal: digits with at most one dot;
returns (integer digits, fraction digits), failing on anything else. -/
def scanParts (l : List Char) : Option (List Char × List Char) :=
  match splitOnChar '.' l with
  | [ip] =>
    if ip.isEmpty then none
    else if allDigits ip then some (ip, []) else none
  | [ip, fp] =>
    if ip.isEmpty && fp.isEmpty then none
    else if allDigits ip && allDigits fp then some (ip, fp) else none
  | _ => none

/-- The exact rational denoted by a scanned decimal literal. -/
def decValue (neg : Bool) (ip fp : List Char) : ℚ :=
  (cond neg (-1) 1 : ℚ) * ((digitsVal ip : ℚ) + (digitsVal fp : ℚ) / (10 : ℚ) ^ fp.length)

/-- Plain decimal literal to an exact rational (the numeric parse performed by
`pd.to_numeric(..., errors='coerce')` on the cleaned amount strings): optional
sign, digits, optional fractional part; anything else fails. -/
def parseDecimalChars (l : List Char) : Option ℚ :=
  (scanParts (signOf l).2).map (fun p => decValue (signOf l).1 p.1 p.2)

/-- The amount cleaning of `_extract_table` line 81: strip the currency symbol
`₪` and the thousands separators `,` everywhere, then strip whitespace. -/
def cleanedAmount (s : String) : List Char :=
  trimChars (s.toList.filter (fun c => !(c == '₪' || c == ',')))

/-- Amount cell to exact rational: clean, then parse (`errors='coerce'`:
failure yields NaN, i.e. `none`). -/
def parseAmount (s : String) : Option ℚ :=
  parseDecimalChars (cleanedAmount s)

/-- A calendar date. -/
structure YMD where
  year : Nat
  month : Nat
  day : Nat
deriving DecidableEq

/-- Python's `%y` mapping of a 2-digit year: 0-68 map into the 2000s. -/
def yearOf2 (y : Nat) : Nat := if y ≤ 68 then 2000 + y else 1900 + y

/-- Gregorian leap year. -/
def isLeap (y : Nat) : Bool := (y % 4 == 0 && y % 100 != 0) || y % 400 == 0

/-- Days in a month. -/
def daysInMonth (y m : Nat) : Nat :=
  if m == 2 then (if isLeap y then 29 else 28)
  else if m == 4 || m == 6 || m == 9 || m == 11 then 30
  else 31

/-- A structurally valid calendar date. -/
def validDate (d : YMD) : Prop :=
  1 ≤ d.month ∧ d.month ≤ 12 ∧ 1 ≤ d.day ∧ d.day ≤ daysInMonth d.year d.month

instance (d : YMD) : Decidable (validDate d) := by
  unfold validDate; infer_instance

/-- The strict `%d.%m.%y` date parse of `_extract_table` line 88
(`errors='coerce'`): exactly three dot-separated 1-2 digit components, the
result must be a real calendar date; anything else yields NaT (`none`). -/
def parseDateDMY (s : String) : Option YMD :=
  match splitOnChar '.' s.toList with
  | [ds, ms, ys] =>
    if 1 ≤ ds.length ∧ ds.length ≤ 2 ∧ allDigits ds ∧
       1 ≤ ms.length ∧ ms.length ≤ 2 ∧ allDigits ms ∧
       1 ≤ ys.length ∧ ys.length ≤ 2 ∧ allDigits ys then
      if 1 ≤ digitsVal ms ∧ digitsVal ms ≤ 12 ∧ 1 ≤ digitsVal ds ∧
         digitsVal ds ≤ daysInMonth (yearOf2 (digitsVal ys)) (digitsVal ms) then
        some ⟨yearOf2 (digitsVal ys), digitsVal ms, digitsVal ds⟩
      else none
    else none
  | _ => none

/-- A normalized transaction row produced by the advanced extractor
(`description` stays null when its column was never mapped or the cell was
blank). -/
structure TxnRow where
  date : YMD
  description : Option String
  amount : ℚ
deriving DecidableEq

/-- Row-level cleaning of `_extract_table` lines 76-89: drop the row when the
date or amount cell is NaN (`dropna(subset=['date','amount'])`), when the
cleaned amount does not parse, or when the date does not parse. -/
def extractRow (dc : Cell) (desc : Option Cell) (ac : Cell) : Option TxnRow :=
  match dc, ac with
  | some ds, some as0 =>
    match parseAmount as0, parseDateDMY ds with
    | some q, some d => some ⟨d, desc.join, q⟩
    | _, _ => none
  | _, _ => none

/-- The per-field candidate keyword sets of `_map_columns`. -/
def date_candidates : List String := ["תאריך", "date", "taarich"]

/-- Candidate header labels for the description column. -/
def desc_candidates : List String :=
  ["שם בית עסק", "תיאור", "פרטים", "description", "details", "business"]

/-- Candidate header labels for the amount column. -/
def amount_candidates : List String := ["סכום", "סכום חיוב", "amount", "price", "debit"]

/-- `_map_columns` per-field resolution: first column (in column order) whose
stripped name is an exact candidate; otherwise first column containing some
candidate as a substring; otherwise unresolved. -/
def findCol (cols : List String) (cands : List String) : Option Nat :=
  match cols.findIdx? (fun c => cands.contains c) with
  | some i => some i
  | none => cols.findIdx? (fun c => cands.any (fun k => kwIn k c))

/-- The stripped header labels of segment starting at row `h`
(`df_slice.columns = df_slice.iloc[0]` then `.astype(str).str.strip()`). -/
def segCols (grid : List (List Cell)) (h : Nat) : List String :=
  (grid.getD h []).map cellTrim

/-- Errors the advanced parse can raise. -/
inductive PErr where
  | valueError (msg : String)
  | keyError (cols : List String)
deriving DecidableEq

/-- `_extract_table` on the segment `[h, e)`: map the columns from the header
row, then clean the data rows.  When the column mapping did not resolve `date`
or `amount`, `dropna(subset=['date', 'amount'])` raises a `KeyError` naming
the missing labels, which propagates out of the whole parse. -/
def extract_table (grid : List (List Cell)) (h e : Nat) : Except PErr (List TxnRow) :=
  match findCol (segCols grid h) date_candidates, findCol (segCols grid h) amount_candidates with
  | some di, some ai =>
    Except.ok ((((grid.drop (h + 1)).take (e - (h + 1)))).filterMap (fun r =>
      extractRow (r.getD di none)
        ((findCol (segCols grid h) desc_candidates).map (fun dei => r.getD dei none))
        (r.getD ai none)))
  | some _, none => Except.error (PErr.keyError ["amount"])
  | none, some _ => Except.error (PErr.keyError ["date"])
  | none, none => Except.error (PErr.keyError ["date", "amount"])

/-- Process the detected segments in order: a raised error propagates
immediately; empty extracted tables are skipped (`if not table_df.empty`).
Each kept table records whether its header mapped a description column,
which the final projection of `parse` (line 58) depends on. -/
def extractSegs (grid : List (List Cell)) :
    List (Nat × Nat) → Except PErr (List (Bool × List TxnRow))
  | [] => Except.ok []
  | (h, e) :: rest =>
    match extract_table grid h e with
    | Except.error err => Except.error err
    | Except.ok t =>
      match extractSegs grid rest with
      | Except.error err => Except.error err
      | Except.ok ts =>
        Except.ok (if t.isEmpty then ts
          else ((findCol (segCols grid h) desc_candidates).isSome, t) :: ts)

/-- The error message of `AdvancedExcelParser.parse` when no table is found. -/
def noTablesMsg : String := "Could not find any valid transaction tables in the Excel file."

/-- `AdvancedExcelParser.parse`: segment the grid, extract every segment, fail
hard when no non-empty table was produced, otherwise concatenate and apply
the final projection `full_df[['date', 'description', 'amount']]` (line 58):
when no kept table mapped a description column the concatenated frame lacks
that column and the projection raises `KeyError('description')`. -/
def advancedParse (grid : List (List Cell)) : Except PErr (List TxnRow) :=
  match extractSegs grid (segmentGrid grid) with
  | Except.error err => Except.error err
  | Except.ok tables =>
    if tables.isEmpty then Except.error (PErr.valueError noTablesMsg)
    else if tables.any (fun t => t.1) then Except.ok ((tables.map (fun t => t.2)).flatten)
    else Except.error (PErr.keyError ["description"])

/-! ### Extraction lemmas -/

theorem parseDateDMY_valid {s : String} {d : YMD} (h : parseDateDMY s = some d) :
    validDate d := by
  unfold parseDateDMY at h
  split at h
  · split_ifs at h with h1 h2
    · injection h with h'
      subst h'
      exact ⟨h2.1, h2.2.1, h2.2.2.1, h2.2.2.2⟩
  · exact Option.noConfusion h

theorem extractRow_valid {dc : Cell} {desc : Option Cell} {ac : Cell} {t : TxnRow}
    (h : extractRow dc desc ac = some t) :
    validDate t.date ∧ ∃ as0, ac = some as0 ∧ parseAmount as0 = some t.amount := by
  cases dc with
  | none => simp [extractRow] at h
  | some ds =>
    cases ac with
    | none => simp [extractRow] at h
    | some as0 =>
      cases hq : parseAmount as0 with
      | none => simp [extractRow, hq] at h
      | some q =>
        cases hd : parseDateDMY ds with
        | none => simp [extractRow, hq, hd] at h
        | some d =>
          simp only [extractRow, hq, hd] at h
          injection h with h'
          subst h'
          exact ⟨parseDateDMY_valid hd, as0, rfl, hq⟩

theorem extractRow_no_desc {dc : Cell} {ac : Cell} {t : TxnRow}
    (h : extractRow dc none ac = some t) : t.description = none := by
  cases dc with
  | none => simp [extractRow] at h
  | some ds =>
    cases ac with
    | none => simp [extractRow] at h
    | some as0 =>
      cases hq : parseAmount as0 with
      | none => simp [extractRow, hq] at h
      | some q =>
        cases hd : parseDateDMY ds with
        | none => simp [extractRow, hq, hd] at h
        | some d =>
          simp only [extractRow, hq, hd] at h
          injection h with h'
          subst h'
          rfl

theorem extract_table_ok_valid {grid : List (List Cell)} {h e : Nat} {rows : List TxnRow}
    (hok : extract_table grid h e = Except.ok rows) : ∀ t ∈ rows, validDate t.date := by
  unfold extract_table at hok
  split at hok
  · injection hok with h'
    subst h'
    intro t ht
    obtain ⟨r, _, hr⟩ := List.mem_filterMap.mp ht
    exact (extractRow_valid hr).1
  · exact Except.noConfusion hok
  · exact Except.noConfusion hok
  · exact Except.noConfusion hok

/-! ### Evaluation lemmas for concrete amounts (ℚ arithmetic is opaque to
kernel reduction, so concrete rational values are derived, not decided) -/

theorem parseAmount_eq_some {s : String} {b : Bool} {ip fp : List Char}
    (h1 : (signOf (cleanedAmount s)).1 = b)
    (h2 : scanParts (signOf (cleanedAmount s)).2 = some (ip, fp)) :
    parseAmount s = some (decValue b ip fp) := by
  unfold parseAmount parseDecimalChars
  rw [h2, ← h1]
  rfl

theorem decValue_nat (ip : List Char) : decValue false ip [] = (digitsVal ip : ℚ) := by
  simp [decValue, digitsVal]

theorem parseAmount_int_eval {s : String} {ip : List Char} {n : ℕ}
    (h1 : (signOf (cleanedAmount s)).1 = false)
    (h2 : scanParts (signOf (cleanedAmount s)).2 = some (ip, []))
    (h3 : digitsVal ip = n) :
    parseAmount s = some (n : ℚ) := by
  rw [parseAmount_eq_some h1 h2, decValue_nat, h3]

theorem parseAmount_1234_50 : parseAmount "₪1,234.50" = some (1234.5 : ℚ) := by
  rw [@parseAmount_eq_some "₪1,234.50" false
    ['1', '2', '3', '4'] ['5', '0'] (by decide) (by decide)]
  have d1 : digitsVal ['1', '2', '3', '4'] = 1234 := by decide
  have d2 : digitsVal ['5', '0'] = 50 := by decide
  simp only [Option.some.injEq, decValue, d1, d2]
  norm_num

theorem parseAmount_7 : parseAmount "7" = some (7 : ℚ) := by
  have := @parseAmount_int_eval "7" ['7'] 7
    (by decide) (by decide) (by decide)
  simpa using this

theorem parseAmount_10 : parseAmount "10" = some (10 : ℚ) := by
  have := @parseAmount_int_eval "10" ['1', '0'] 10
    (by decide) (by decide) (by decide)
  simpa using this

theorem parseAmount_5 : parseAmount "5" = some (5 : ℚ) := by
  have := @parseAmount_int_eval "5" ['5'] 5
    (by decide) (by decide) (by decide)
  simpa using this

theorem extractRow_eq_some {ds as0 : String} {desc : Option Cell} {q : ℚ} {d : YMD}
    (hq : parseAmount as0 = some q) (hd : parseDateDMY ds = some d) :
    extractRow (some ds) desc (some as0) = some ⟨d, desc.join, q⟩ := by
  simp [extractRow, hq, hd]

/-! ### Claim C5 -/

/-- Concrete transaction for the claim C5 witness. -/
def c5txn : TxnRow := ⟨⟨2026, 1, 1⟩, some "Cafe", 1234.5⟩

/-- Concrete two-row segment (no description column) for the claim C5 witness. -/
def c5grid : List (List Cell) :=
  [[some "date", some "amount"], [some "01.01.26", some "7"]]

theorem segmentGrid_eq_nil_of_no_header {grid : List (List Cell)}
    (h : ∀ row ∈ grid, rowQualifies row = false) : segmentGrid grid = [] := by
  have hhe : headerIdxs grid = [] := headerIdxsAux_eq_nil.mpr h
  rw [segmentGrid_eq, hhe]
  rfl

/-- Claim C6: for every grid in which no row has at least 2
header-keyword-matching cells, the import fails with a hard structural parse
failure (the `ValueError` of `AdvancedExcelParser.parse`) surfaced to the
caller, producing no partial result. -/
theorem c6_no_header_hard_failure (grid : List (List Cell))
    (h : ∀ row ∈ grid, rowQualifies row = false) :
    advancedParse grid = Except.error (PErr.valueError noTablesMsg) := by
  have hseg : segmentGrid grid = [] := segmentGrid_eq_nil_of_no_header h
  unfold advancedParse
  rw [hseg]
  rfl

/-- Concrete keyword-free grid for the claim C6 witness. -/
def c6grid : List (List Cell) := [[some "hello"], [some "world", none]]

/-- Witness for claim C6: the hypothesis holds on `c6grid` and the theorem
applies there. -/
theorem c6_no_header_hard_failure_witness :
    (∀ row ∈ c6grid, rowQualifies row = false) ∧
    advancedParse c6grid = Except.error (PErr.valueError noTablesMsg) := by
  have h : ∀ row ∈ c6grid, rowQualifies row = false := by decide
  exact ⟨h, c6_no_header_hard_failure c6grid h⟩

/-! ### Claim C7 -/

/-- Grid with two detected segments: the first maps all three canonical
fields and yields one transaction; the second's header resolves date and
description but no amount column. -/
def c7grid : List (List Cell) :=
  [[some "date", some "description", some "amount"],
   [some "01.01.26", some "Coffee", some "10"],
   [some "date", some "description", some "xxx"],
   [some "02.01.26", some "Tea", some "5"]]

/-- Supplementary grid for the claim C7 witness: date and amount columns but
no description column anywhere. -/
def c7agrid : List (List Cell) :=
  [[some "date", some "amount"], [some "01.01.26", some "7"]]

/-- Supplementary grid for the claim C7 witness: a single fully-mapped
segment, on which the import succeeds end to end. -/
def c7bgrid : List (List Cell) :=
  [[some "date", some "description", some "amount"],
   [some "01.01.26", some "Tea", some "5"]]

/-- The `expense_classification_cache` table: rows ((user_id, description),
category_name); the PRIMARY KEY (user_id, description) keeps keys unique. -/
abbrev CacheState := List ((Nat × String) × String)

/-- `get_cached_category`: exact, case-sensitive lookup keyed by
(user_id, description), no normalization. -/
def get_cached_category (cache : CacheState) (uid : Nat) (desc : String) :
    Option String :=
  (cache.find? (fun e => e.1 == (uid, desc))).map (fun e => e.2)

/-- `cache_category`: `INSERT OR REPLACE INTO expense_classification_cache`
— the store's atomic upsert on the primary key. -/
def cache_category (cache : CacheState) (uid : Nat) (desc category : String) :
    CacheState :=
  ((uid, desc), category) :: cache.filter (fun e => !(e.1 == (uid, desc)))

theorem countP_filter_not {α : Type} (p : α → Bool) (l : List α) :
    (l.filter (fun a => !(p a))).countP p = 0 := by
  induction l with
  | nil => rfl
  | cons a l ih =>
    by_cases h : p a = true
    · simp [List.filter_cons, h, ih]
    · simp [List.filter_cons, h, List.countP_cons, ih]

theorem find?_filter_keep {α : Type} (p q : α → Bool) (l : List α)
    (himp : ∀ a, q a = true → p a = true) :
    (l.filter p).find? q = l.find? q := by
  induction l with
  | nil => rfl
  | cons a l ih =>
    by_cases hq : q a = true
    · have hp := himp a hq
      simp [List.filter_cons, hp, List.find?_cons_of_pos, hq]
    · by_cases hp : p a = true
      · rw [List.filter_cons_of_pos hp, List.find?_cons_of_neg _ (by simp [hq]),
          List.find?_cons_of_neg _ (by simp [hq]), ih]
      · rw [List.filter_cons_of_neg hp, List.find?_cons_of_neg _ (by simp [hq]), ih]

/-! ### Claim C9 -/

/-- Claim C9: for every owner, description, and category, putting a cache
entry is an idempotent overwrite keyed by (owner, exact case-sensitive
description): putting twice equals putting once, the lookup afterwards
returns the stored category, exactly one entry carries that key, and lookups
under any other (e.g. differently-cased) description are untouched. -/
theorem c9_cache_idempotent_overwrite (cache : CacheState) (uid : Nat)
    (d d' cat : String) :
    get_cached_category (cache_category (cache_category cache uid d cat) uid d cat) uid d
      = some cat ∧
    cache_category (cache_category cache uid d cat) uid d cat
      = cache_category cache uid d cat ∧
    (cache_category cache uid d cat).countP (fun e => e.1 == (uid, d)) = 1 ∧
    (d' ≠ d →
      get_cached_category (cache_category cache uid d cat) uid d'
        = get_cached_category cache uid d') := by
  have hself : ((((uid, d) : Nat × String)) == (uid, d)) = true := beq_self_eq_true _
  refine ⟨?_, ?_, ?_, ?_⟩
  · simp [get_cached_category, cache_category]
  · simp [cache_category, List.filter_cons, hself, List.filter_filter]
  · simp [cache_category, List.countP_cons, hself,
      countP_filter_not (fun e => e.1 == (uid, d)) cache]
  · intro hne
    have hkey : ((((uid, d) : Nat × String)) == (uid, d')) = false := by
      rw [beq_eq_false_iff_ne]
      intro h
      exact hne (congrArg Prod.snd h).symm
    unfold get_cached_category cache_category
    rw [List.find?_cons_of_neg _ (by simp [hkey])]
    rw [find?_filter_keep]
    intro e he
    have he1 : e.1 = (uid, d') := eq_of_beq he
    rw [he1]
    have hk2 : ((((uid, d') : Nat × String)) == (uid, d)) = false := by
      rw [beq_eq_false_iff_ne]
      intro h
      exact hne (congrArg Prod.snd h)
    simp [hk2]

/-- Witness for claim C9: concrete cache, keys differing only in case. -/
theorem c9_cache_idempotent_overwrite_witness :
    (("food store" : String) ≠ "Food Store") ∧
    get_cached_category
      (cache_category (cache_category [] 1 "Food Store" "Food") 1 "Food Store" "Food")
      1 "Food Store" = some "Food" ∧
    get_cached_category (cache_category [] 1 "Food Store" "Food") 1 "food store"
      = get_cached_category [] 1 "food store" := by
  have h := c9_cache_idempotent_overwrite [] 1 "Food Store" "food store" "Food"
  exact ⟨by decide, h.1, h.2.2.2 (by decide)⟩

/-! ## Python call arity of the un-refactored db calls

`db.py` and `app.py` take a `user_id` everywhere, but `importer.py`,
`advanced_importer.py` and `logic.py` still call the store without it.  A
Python call binds iff it supplies exactly the callee's required positional
parameters (none of these functions has defaults or varargs); otherwise the
call raises `TypeError`. -/

/-- A Python call binds iff the argument count equals the callee's required
positional parameter count. -/
def pyCallBinds (params args : Nat) : Bool := args == params

/-- Required positional parameters of `db.get_cached_category` (db.py 274). -/
def get_cached_category_params : Nat := 2

/-- Required positional parameters of `db.cache_category` (db.py 282). -/
def cache_category_params : Nat := 3

/-- Required positional parameters of `db.get_categories` (db.py 178). -/
def get_categories_params : Nat := 1

/-- Required positional parameters of `db.get_yearly_expenses` (db.py 212). -/
def get_yearly_expenses_params : Nat := 2

/-- Required positional parameters of `db.get_monthly_expenses` (db.py 197). -/
def get_monthly_expenses_params : Nat := 3

/-- Arguments supplied at importer.py line 102
(`expenses_df['description'].apply(db.get_cached_category)`). -/
def importer_cache_lookup_args : Nat := 1

/-- Arguments supplied at importer.py line 187
(`db.cache_category(row['description'], category)`). -/
def importer_cache_write_args : Nat := 2

/-- Arguments supplied at advanced_importer.py line 137
(`db.get_categories()`). -/
def process_file_get_categories_args : Nat := 0

/-- Arguments supplied at logic.py line 9 (`db.get_categories()`). -/
def logic_get_categories_args : Nat := 0

/-- Arguments supplied at logic.py line 10 (`db.get_yearly_expenses(year)`). -/
def logic_yearly_expenses_args : Nat := 1

/-- Arguments supplied at logic.py line 39
(`db.get_monthly_expenses(year, month)`). -/
def logic_monthly_expenses_args : Nat := 2

/-- The `TypeError` raised when `db.get_categories` is called without its
`user_id`. -/
def getCategoriesTypeErrorMsg : String :=
  "TypeError: get_categories() missing 1 required positional argument"

/-- The `TypeError` raised by the cache lookup at importer.py 102. -/
def cacheLookupTypeErrorMsg : String :=
  "TypeError: get_cached_category() missing 1 required positional argument"

/-- The `TypeError` raised by the cache write at importer.py 187. -/
def cacheWriteTypeErrorMsg : String :=
  "TypeError: cache_category() missing 1 required positional argument"

/-- The `TypeError` raised by `db.get_monthly_expenses` at logic.py 39. -/
def monthlyExpensesTypeErrorMsg : String :=
  "TypeError: get_monthly_expenses() missing 1 required positional argument"

/-! ## Degraded categorization with no API key (`process_file`,
advanced_importer.py 129-146; `categorize_expenses`, importer.py 96-97) -/

/-- `process_file` after a successful parse, with the classifier capability
absent (`api_key=None`): the function first runs
`categories_df = db.get_categories()` (advanced_importer.py 137) — no
`user_id`, so the call does not bind and raises `TypeError` — and only after
that call would the else-branch (lines 143-144) assign "Uncategorized" to
every row without ever consulting the cache. -/
def process_file_no_key (cache : CacheState) (df : List TxnRow) :
    Except String (List (TxnRow × String) × CacheState) :=
  if pyCallBinds get_categories_params process_file_get_categories_args then
    Except.ok (df.map (fun t => (t, "Uncategorized")), cache)
  else Except.error getCategoriesTypeErrorMsg

/-- `categorize_expenses` with a falsy `api_key` (importer.py 96-97): the
input is returned unchanged — no category assigned, no cache touched. -/
def categorize_expenses_no_key (cache : CacheState) (df : List TxnRow) :
    List TxnRow × CacheState := (df, cache)

/-! ### Claim C1 -/

/-- Cache holding a label for "Starbucks", for the claim C1 counterexample. -/
def c1cache : CacheState := [((1, "Starbucks"), "Food")]

/-- A parsed transaction whose description has a cache entry. -/
def c1txn : TxnRow := ⟨⟨2026, 1, 1⟩, some "Starbucks", 10⟩

/-- Claim C1 counterexample: the cache holds "Food" for "Starbucks", yet with
the classifier capability absent `process_file` raises `TypeError` at its
`db.get_categories()` call before assigning any category — the cached
transaction neither keeps its cached label nor receives the sentinel — and
`categorize_expenses` returns the transaction unchanged, assigning nothing. -/
theorem c1_counterexample :
    get_cached_category c1cache 1 "Starbucks" = some "Food" ∧
    process_file_no_key c1cache [c1txn] = Except.error getCategoriesTypeErrorMsg ∧
    categorize_expenses_no_key c1cache [c1txn] = ([c1txn], c1cache) := by
  exact ⟨by decide, rfl, rfl⟩

/-- Claim C1 (amended): with the classification capability absent,
`categorize_expenses` returns its input unchanged — no category assigned, no
cache read or write — while `process_file`'s unbound `db.get_categories()`
call raises `TypeError` before its "Uncategorized" assignment is reached, so
no transaction receives any category and the cache is untouched. -/
theorem c1_no_key_behaviour (cache : CacheState) (df : List TxnRow) :
    pyCallBinds get_categories_params process_file_get_categories_args = false ∧
    process_file_no_key cache df = Except.error getCategoriesTypeErrorMsg ∧
    categorize_expenses_no_key cache df = (df, cache) :=
  ⟨by decide, rfl, rfl⟩

/-! ## Categorizer retry/backoff (`categorize_expenses`, importer.py 114-201) -/

/-- `BATCH_SIZE = 15` (importer.py 115). -/
def BATCH_SIZE : Nat := 15

/-- `max_retries = 3` (importer.py 141). -/
def max_retries : Nat := 3

/-- `retry_delay = 2` (importer.py 142). -/
def retry_delay : Nat := 2

/-- One call to the classifier: either a parsed label list or an exception
carrying its message text. -/
inductive LLMOutcome where
  | resp (labels : List String)
  | exc (msg : String)

/-- Rate-limit detection (importer.py 170): the exception text contains
"429" or "RESOURCE_EXHAUSTED". -/
def isRateLimit (msg : String) : Bool :=
  kwIn "429" msg || kwIn "RESOURCE_EXHAUSTED" msg

/-- Result of the per-batch attempt loop: success flag, the labels on
success, the number of classifier calls made, and the backoff delays slept. -/
structure AttemptResult where
  success : Bool
  labels : List String
  calls : Nat
  sleeps : List Nat
deriving DecidableEq

/-- The attempt loop (importer.py 147-179).  `remaining` counts the attempts
still allowed (the loop bound is `max_retries`), `attempt` the 0-based
attempt index.  A response with the right item count succeeds; an item-count
mismatch fails the batch with no retry; a rate-limit exception sleeps
`retry_delay * 2^attempt` and retries unless this was the last attempt; any
other exception fails the batch immediately. -/
def batchLoopAux (oracle : Nat → LLMOutcome) (batchLen : Nat) :
    Nat → Nat → AttemptResult
  | 0, _ => ⟨false, [], 0, []⟩
  | remaining + 1, attempt =>
    match oracle attempt with
    | LLMOutcome.resp labels =>
      if labels.length = batchLen then ⟨true, labels, 1, []⟩ else ⟨false, [], 1, []⟩
    | LLMOutcome.exc msg =>
      if isRateLimit msg then
        if remaining = 0 then ⟨false, [], 1, []⟩
        else
          (fun r => ⟨r.success, r.labels, r.calls + 1,
              (retry_delay * 2 ^ attempt) :: r.sleeps⟩)
            (batchLoopAux oracle batchLen remaining (attempt + 1))
      else ⟨false, [], 1, []⟩

/-- The retry loop run for one batch. -/
def runBatch (oracle : Nat → LLMOutcome) (batchLen : Nat) : AttemptResult :=
  batchLoopAux oracle batchLen max_retries 0

/-- Per-batch category assignment (importer.py 181-190): on success the
returned labels, on failure "Uncategorized" for every member. -/
def batchCategories (oracle : Nat → LLMOutcome) (batch : List String) : List String :=
  if (runBatch oracle batch.length).success then (runBatch oracle batch.length).labels
  else batch.map (fun _ => "Uncategorized")

/-- Split the uncached descriptions into consecutive batches of `BATCH_SIZE`
(`for i in range(0, len(uncached_df), BATCH_SIZE)`); `fuel` bounds the
recursion by the list length. -/
def chunkAux : Nat → List String → List (List String)
  | _, [] => []
  | 0, l => [l]
  | fuel + 1, a :: l => ((a :: l).take BATCH_SIZE) :: chunkAux fuel ((a :: l).drop BATCH_SIZE)

/-- The batches of 15 the categorizer processes. -/
def chunk15 (l : List String) : List (List String) := chunkAux l.length l

/-- The outer batch loop (importer.py 121-193) with its own sequence of
classifier call outcomes per batch (`oracles batchIdx attempt`): a failed
batch assigns "Uncategorized" to its members and the loop continues with the
next batch; a successful batch first stores each item through
`db.cache_category(row['description'], category)` (line 187) — a call one
positional argument short of db.py 282, raising `TypeError` and aborting the
run. -/
def categorizeBatchList (oracles : Nat → Nat → LLMOutcome) :
    Nat → List (List String) → Except String (List String)
  | _, [] => Except.ok []
  | bi, b :: rest =>
    if (runBatch (oracles bi) b.length).success then
      if pyCallBinds cache_category_params importer_cache_write_args then
        match categorizeBatchList oracles (bi + 1) rest with
        | Except.ok labels => Except.ok ((runBatch (oracles bi) b.length).labels ++ labels)
        | Except.error e => Except.error e
      else Except.error cacheWriteTypeErrorMsg
    else
      match categorizeBatchList oracles (bi + 1) rest with
      | Except.ok labels => Except.ok (b.map (fun _ => "Uncategorized") ++ labels)
      | Except.error e => Except.error e

/-- `categorize_expenses` beyond the cache partition (importer.py 102-201):
its very first step applies `db.get_cached_category` through `Series.apply`
with the description as its only argument — one short of db.py 274 — raising
`TypeError` before any batch is processed. -/
def categorizeUncached (oracles : Nat → Nat → LLMOutcome) (uncached : List String) :
    Except String (List String) :=
  if pyCallBinds get_cached_category_params importer_cache_lookup_args then
    categorizeBatchList oracles 0 (chunk15 uncached)
  else Except.error cacheLookupTypeErrorMsg

/-! ### Categorizer lemmas -/

theorem batchLoopAux_calls_le (oracle : Nat → LLMOutcome) (n : Nat) :
    ∀ r a, (batchLoopAux oracle n r a).calls ≤ r := by
  intro r
  induction r with
  | zero => intro a; simp [batchLoopAux]
  | succ r ih =>
    intro a
    rw [batchLoopAux]
    cases oracle a with
    | resp labels =>
      by_cases h : labels.length = n <;> simp [h]
    | exc msg =>
      by_cases h : isRateLimit msg = true
      · by_cases h0 : r = 0
        · simp [h, h0]
        · simp only [h, if_true, h0, if_false]
          have := ih (a + 1)
          simp
          omega
      · simp [h]

theorem batchLoopAux_success_len (oracle : Nat → LLMOutcome) (n : Nat) :
    ∀ r a, (batchLoopAux oracle n r a).success = true →
      (batchLoopAux oracle n r a).labels.length = n := by
  intro r
  induction r with
  | zero => intro a h; simp [batchLoopAux] at h
  | succ r ih =>
    intro a
    rw [batchLoopAux]
    cases oracle a with
    | resp labels =>
      by_cases h : labels.length = n <;> simp [h]
    | exc msg =>
      by_cases h : isRateLimit msg = true
      · by_cases h0 : r = 0
        · simp [h, h0]
        · simp only [h, if_true, h0, if_false]
          exact ih (a + 1)
      · simp [h]

theorem batchCategories_length (oracle : Nat → LLMOutcome) (b : List String) :
    (batchCategories oracle b).length = b.length := by
  unfold batchCategories
  split
  · exact batchLoopAux_success_len oracle b.length max_retries 0 (by assumption)
  · simp

theorem chunkAux_flatten : ∀ (fuel : Nat) (l : List String),
    l.length ≤ fuel → (chunkAux fuel l).flatten = l := by
  intro fuel
  induction fuel with
  | zero =>
    intro l hl
    cases l with
    | nil => rfl
    | cons a t => simp at hl
  | succ fuel ih =>
    intro l hl
    cases l with
    | nil => rfl
    | cons a t =>
      rw [chunkAux]
      rw [List.flatten_cons]
      rw [ih ((a :: t).drop BATCH_SIZE)
        (by rw [List.length_drop]; simp only [BATCH_SIZE, List.length_cons] at hl ⊢; omega)]
      exact List.take_append_drop _ _

theorem categorizeBatchList_ok_length (oracles : Nat → Nat → LLMOutcome) :
    ∀ (batches : List (List String)) (bi : Nat) (labels : List String),
      categorizeBatchList oracles bi batches = Except.ok labels →
      labels.length = (batches.map List.length).sum := by
  intro batches
  induction batches with
  | nil =>
    intro bi labels h
    rw [categorizeBatchList] at h
    injection h with h'
    subst h'
    rfl
  | cons b rest ih =>
    intro bi labels h
    rw [categorizeBatchList] at h
    by_cases hs : (runBatch (oracles bi) b.length).success = true
    · rw [if_pos hs, if_neg (by decide)] at h
      exact Except.noConfusion h
    · rw [if_neg hs] at h
      cases hres : categorizeBatchList oracles (bi + 1) rest with
      | ok ls =>
        rw [hres] at h
        injection h with h'
        subst h'
        simp [ih (bi + 1) ls hres]
      | error e =>
        rw [hres] at h
        exact Except.noConfusion h

/-! ### Claim C4 -/

/-- Claim C4 (code bug): the retry loop of `categorize_expenses` implements
exactly the claimed policy — a rate-limit-class failure is retried with
backoff delays 2 then 4, bounded at 3 attempts total, after which the whole
batch is assigned "Uncategorized"; a non-rate-limit failure or an item-count
mismatch aborts the batch after a single call with no retry; a failed batch
lets processing continue with the next batch, every item labelled — but a
successful batch raises `TypeError` at the `db.cache_category` write,
aborting the run, and the entry's cache lookup raises `TypeError` before any
batch is processed at all, so the claimed continuation never executes. -/
theorem c4_retry_backoff :
    (∀ oracle n, (runBatch oracle n).calls ≤ max_retries) ∧
    (∀ oracle n,
      (∀ a, a < max_retries → ∃ m, oracle a = LLMOutcome.exc m ∧ isRateLimit m = true) →
        runBatch oracle n = ⟨false, [], 3, [2, 4]⟩) ∧
    (∀ oracle n m, oracle 0 = LLMOutcome.exc m → isRateLimit m = false →
        runBatch oracle n = ⟨false, [], 1, []⟩) ∧
    (∀ oracle n labels, oracle 0 = LLMOutcome.resp labels → labels.length ≠ n →
        runBatch oracle n = ⟨false, [], 1, []⟩) ∧
    (∀ oracle batch, (runBatch oracle batch.length).success = false →
        batchCategories oracle batch = batch.map (fun _ => "Uncategorized")) ∧
    (∀ oracles bi b rest, (runBatch (oracles bi) b.length).success = false →
        categorizeBatchList oracles bi (b :: rest)
          = (categorizeBatchList oracles (bi + 1) rest).map
              (fun labels => b.map (fun _ => "Uncategorized") ++ labels)) ∧
    (∀ oracles bi b rest, (runBatch (oracles bi) b.length).success = true →
        categorizeBatchList oracles bi (b :: rest) = Except.error cacheWriteTypeErrorMsg) ∧
    (∀ oracles uncached, categorizeUncached oracles uncached
        = Except.error cacheLookupTypeErrorMsg) ∧
    (∀ oracles uncached labels,
        categorizeBatchList oracles 0 (chunk15 uncached) = Except.ok labels →
        labels.length = uncached.length) := by
  refine ⟨?_, ?_, ?_, ?_, ?_, ?_, ?_, ?_, ?_⟩
  · intro oracle n
    exact batchLoopAux_calls_le oracle n max_retries 0
  · intro oracle n h
    obtain ⟨m0, hm0, hr0⟩ := h 0 (by decide)
    obtain ⟨m1, hm1, hr1⟩ := h 1 (by decide)
    obtain ⟨m2, hm2, hr2⟩ := h 2 (by decide)
    unfold runBatch max_retries
    simp [batchLoopAux, hm0, hr0, hm1, hr1, hm2, hr2, retry_delay]
  · intro oracle n m hm hr
    unfold runBatch max_retries
    simp [batchLoopAux, hm, hr]
  · intro oracle n labels hl hlen
    unfold runBatch max_retries
    simp [batchLoopAux, hl, hlen]
  · intro oracle batch h
    unfold batchCategories
    rw [if_neg (by rw [h]; exact Bool.false_ne_true)]
  · intro oracles bi b rest hs
    rw [categorizeBatchList, if_neg (by rw [hs]; exact Bool.false_ne_true)]
    cases categorizeBatchList oracles (bi + 1) rest <;> rfl
  · intro oracles bi b rest hs
    rw [categorizeBatchList, if_pos hs, if_neg (by decide)]
  · intro oracles uncached
    rw [categorizeUncached, if_neg (by decide)]
  · intro oracles uncached labels h
    rw [categorizeBatchList_ok_length oracles (chunk15 uncached) 0 labels h]
    have hfl := chunkAux_flatten uncached.length uncached (le_refl _)
    calc ((chunk15 uncached).map List.length).sum
        = (chunk15 uncached).flatten.length := (List.length_flatten _).symm
      _ = uncached.length := by rw [chunk15, hfl]

/-- Witness for claim C4: the retry and batch loops evaluated against
concrete oracles — an always-rate-limited classifier, a hard-failing one, a
count-mismatched response, a failed two-item batch, a succeeding batch that
hits the cache-write `TypeError`, and the entry's lookup `TypeError`. -/
theorem c4_retry_backoff_witness :
    runBatch (fun _ => LLMOutcome.exc "429") 15 = ⟨false, [], 3, [2, 4]⟩ ∧
    runBatch (fun _ => LLMOutcome.exc "boom") 15 = ⟨false, [], 1, []⟩ ∧
    runBatch (fun _ => LLMOutcome.resp ["Food"]) 15 = ⟨false, [], 1, []⟩ ∧
    batchCategories (fun _ => LLMOutcome.exc "boom") ["a", "b"]
      = ["Uncategorized", "Uncategorized"] ∧
    categorizeBatchList (fun _ _ => LLMOutcome.resp ["Food", "Transport"]) 0 [["a", "b"]]
      = Except.error cacheWriteTypeErrorMsg ∧
    categorizeUncached (fun _ _ => LLMOutcome.exc "429") (List.replicate 20 "d")
      = Except.error cacheLookupTypeErrorMsg := by
  have h1 := c4_retry_backoff.2.1 (fun _ => LLMOutcome.exc "429") 15
    (fun a _ => ⟨"429", rfl, by decide⟩)
  have h2 := c4_retry_backoff.2.2.1 (fun _ => LLMOutcome.exc "boom") 15 "boom" rfl (by decide)
  have h3 := c4_retry_backoff.2.2.2.1 (fun _ => LLMOutcome.resp ["Food"]) 15 ["Food"] rfl
    (by decide)
  have h2b := c4_retry_backoff.2.2.1 (fun _ => LLMOutcome.exc "boom") 2 "boom" rfl (by decide)
  have h4 := c4_retry_backoff.2.2.2.2.1 (fun _ => LLMOutcome.exc "boom") ["a", "b"]
    (by simp [h2b])
  have h5 := c4_retry_backoff.2.2.2.2.2.2.1 (fun _ _ => LLMOutcome.resp ["Food", "Transport"])
    0 ["a", "b"] [] (by decide)
  have h6 := c4_retry_backoff.2.2.2.2.2.2.2.1 (fun _ _ => LLMOutcome.exc "429")
    (List.replicate 20 "d")
  exact ⟨h1, h2, h3, by simpa using h4, h5, h6⟩

/-! ## Claim C3: the cache write-through of `categorize_expenses`

`db.get_cached_category(user_id, description)` and
`db.cache_category(user_id, description, category_name)` both require a
`user_id`, but `categorize_expenses` calls them (importer.py 102 and 187)
through `Series.apply` with the description as the only argument, and as
`db.cache_category(row['description'], category)` — one positional argument
short in both cases, which raises `TypeError` in Python. -/

/-- Claim C3 (code bug): both cache calls of `categorize_expenses` fail to
bind — the cache read raises `TypeError` before any batch is processed, and
the cache write would raise on the first successfully classified item — so a
successful batch is never written into the classification cache and the
exception terminates the run. -/
theorem c3_cache_write_arity_bug :
    pyCallBinds get_cached_category_params importer_cache_lookup_args = false ∧
    pyCallBinds cache_category_params importer_cache_write_args = false := by
  decide

/-! ## ProjectionEngine (`logic.py` 5-58) -/

/-- A category row (`categories` table): name and yearly projection. -/
structure CatRow where
  name : String
  year_projection : ℚ
deriving DecidableEq

/-- One row of `get_projection_status`. -/
structure ProjRow where
  name : String
  year_projection : ℚ
  total_spent : ℚ
  remaining_budget : ℚ
  monthly_allowance : ℚ
deriving DecidableEq

/-- Aggregated spend lookup: the left join on category name with
`fillna(0.0)` — a category with no matching spend row gets 0. -/
def lookupSpent (spend : List (String × ℚ)) (nm : String) : ℚ :=
  match spend.find? (fun p => p.1 == nm) with
  | some p => p.2
  | none => 0

/-- `months_remaining = 12 - current_month + 1` (logic.py 26), computed from
the wall clock (`datetime.now().month`) regardless of the queried year. -/
def months_remaining (currentMonth : Nat) : Int := 12 - (currentMonth : Int) + 1

/-- `get_projection_status(year)` (logic.py 5-33).  The `year` argument only
selects which aggregated spend (`yearlySpend`) is read from the store; the
allowance always divides the remaining budget by the wall-clock
`months_remaining` (or is 0 when that is not positive). -/
def get_projection_status (year : Nat) (currentMonth : Nat) (cats : List CatRow)
    (yearlySpend : List (String × ℚ)) : List ProjRow :=
  cats.map (fun c =>
    { name := c.name
      year_projection := c.year_projection
      total_spent := lookupSpent yearlySpend c.name
      remaining_budget := c.year_projection - lookupSpent yearlySpend c.name
      monthly_allowance :=
        if 0 < months_remaining currentMonth then
          (c.year_projection - lookupSpent yearlySpend c.name)
            / ((months_remaining currentMonth : Int) : ℚ)
        else 0 })

/-- One row of `get_monthly_summary`. -/
structure SummaryRow where
  name : String
  year_projection : ℚ
  yearly_spent : ℚ
  remaining_budget : ℚ
  monthly_allowance : ℚ
  avg_monthly_target : ℚ
  monthly_spent : ℚ
  monthly_variance : ℚ
deriving DecidableEq

/-- `get_monthly_summary(year, month)` (logic.py 35-58): extends the
projection status with `avg_monthly_target = year_projection / 12`, the
month's spend (0 when absent) and
`monthly_variance = avg_monthly_target - monthly_spent`. -/
def get_monthly_summary (year month currentMonth : Nat) (cats : List CatRow)
    (yearlySpend monthlySpend : List (String × ℚ)) : List SummaryRow :=
  (get_projection_status year currentMonth cats yearlySpend).map (fun p =>
    { name := p.name
      year_projection := p.year_projection
      yearly_spent := p.total_spent
      remaining_budget := p.remaining_budget
      monthly_allowance := p.monthly_allowance
      avg_monthly_target := p.year_projection / 12
      monthly_spent := lookupSpent monthlySpend p.name
      monthly_variance := p.year_projection / 12 - lookupSpent monthlySpend p.name })

/-- `get_projection_status` as actually run (logic.py 9-10): the function
first calls `db.get_categories()` and `db.get_yearly_expenses(year)` — both
without the required `user_id` — so the first store read raises `TypeError`
before any arithmetic; the pure computation above sits behind those calls. -/
def get_projection_status_run (year currentMonth : Nat) (cats : List CatRow)
    (yearlySpend : List (String × ℚ)) : Except String (List ProjRow) :=
  if pyCallBinds get_categories_params logic_get_categories_args then
    if pyCallBinds get_yearly_expenses_params logic_yearly_expenses_args then
      Except.ok (get_projection_status year currentMonth cats yearlySpend)
    else Except.error "TypeError: get_yearly_expenses() missing 1 required positional argument"
  else Except.error getCategoriesTypeErrorMsg

/-- `get_monthly_summary` as actually run (logic.py 39-40): it first calls
`db.get_monthly_expenses(year, month)` — missing `user_id` — and then the
crashing `get_projection_status`. -/
def get_monthly_summary_run (year month currentMonth : Nat) (cats : List CatRow)
    (yearlySpend monthlySpend : List (String × ℚ)) : Except String (List SummaryRow) :=
  if pyCallBinds get_monthly_expenses_params logic_monthly_expenses_args then
    match get_projection_status_run year currentMonth cats yearlySpend with
    | Except.ok _ =>
      Except.ok (get_monthly_summary year month currentMonth cats yearlySpend monthlySpend)
    | Except.error e => Except.error e
  else Except.error monthlyExpensesTypeErrorMsg

/-! ### Claim C8 -/

/-- Claim C8 (code bug): the budget arithmetic of logic.py matches the claim
formula for formula — `remaining_budget = yearly_projection − total_spent`
with no clamping, `months_remaining = 13 − current calendar month` regardless
of the queried year, `monthly_allowance = remaining_budget /
months_remaining` (0 if not positive), `monthly_target = yearly_projection /
12`, `monthly_variance = monthly_target − monthly_spent` — but none of it
ever executes: every db call of logic.py omits the required `user_id`, so
`get_projection_status` and `get_monthly_summary` raise `TypeError` on every
invocation. -/
theorem c8_projection_math (year year' currentMonth month : Nat) (cats : List CatRow)
    (ys ms : List (String × ℚ))
    (h1 : 1 ≤ currentMonth) (h2 : currentMonth ≤ 12) :
    (pyCallBinds get_categories_params logic_get_categories_args = false ∧
     pyCallBinds get_yearly_expenses_params logic_yearly_expenses_args = false ∧
     pyCallBinds get_monthly_expenses_params logic_monthly_expenses_args = false) ∧
    get_projection_status_run year currentMonth cats ys
      = Except.error getCategoriesTypeErrorMsg ∧
    get_monthly_summary_run year month currentMonth cats ys ms
      = Except.error monthlyExpensesTypeErrorMsg ∧
    months_remaining currentMonth = 13 - (currentMonth : Int) ∧
    get_projection_status year currentMonth cats ys
      = get_projection_status year' currentMonth cats ys ∧
    (∀ r ∈ get_projection_status year currentMonth cats ys,
        r.remaining_budget = r.year_projection - r.total_spent ∧
        r.monthly_allowance = r.remaining_budget / ((13 - (currentMonth : Int) : Int) : ℚ)) ∧
    (∀ s ∈ get_monthly_summary year month currentMonth cats ys ms,
        s.avg_monthly_target = s.year_projection / 12 ∧
        s.monthly_variance = s.avg_monthly_target - s.monthly_spent) := by
  have hm13 : months_remaining currentMonth = 13 - (currentMonth : Int) := by
    unfold months_remaining
    omega
  refine ⟨⟨by decide, by decide, by decide⟩, rfl, rfl, hm13, rfl, ?_, ?_⟩
  · intro r hr
    obtain ⟨c, _, rfl⟩ := List.mem_map.mp hr
    refine ⟨rfl, ?_⟩
    show (if 0 < months_remaining currentMonth then
        (c.year_projection - lookupSpent ys c.name)
          / ((months_remaining currentMonth : Int) : ℚ)
      else 0)
      = (c.year_projection - lookupSpent ys c.name) / ((13 - (currentMonth : Int) : Int) : ℚ)
    have hpos : 0 < months_remaining currentMonth := by
      unfold months_remaining
      omega
    rw [if_pos hpos, hm13]
  · intro s hs
    obtain ⟨p, _, rfl⟩ := List.mem_map.mp hs
    exact ⟨rfl, rfl⟩

/-- The spec scenario's category list: "Food" with yearly projection 12000. -/
def c8cats : List CatRow := [⟨"Food", 12000⟩]

/-- The spec scenario's year-to-date spend: 5000 on "Food". -/
def c8spend : List (String × ℚ) := [("Food", 5000)]

/-- Witness for claim C8: hypotheses discharged at wall-clock month 7 — the
run wrappers raise their `TypeError`s there — plus the spec scenario
evaluated on the arithmetic behind the crashing calls (remaining 7000,
months remaining 6, allowance 7000/6, monthly target 1000) and an overspent
category showing the unclamped negative remaining budget. -/
theorem c8_projection_math_witness :
    (1 ≤ 7 ∧ 7 ≤ 12) ∧
    get_projection_status_run 2026 7 c8cats c8spend
      = Except.error getCategoriesTypeErrorMsg ∧
    get_monthly_summary_run 2026 7 7 c8cats c8spend []
      = Except.error monthlyExpensesTypeErrorMsg ∧
    months_remaining 7 = 13 - (7 : Int) ∧
    (∀ r ∈ get_projection_status 2026 7 c8cats c8spend,
        r.remaining_budget = r.year_projection - r.total_spent ∧
        r.monthly_allowance = r.remaining_budget / ((13 - (7 : Int) : Int) : ℚ)) ∧
    get_projection_status 2026 7 c8cats c8spend
      = [⟨"Food", 12000, 5000, 7000, 7000 / 6⟩] ∧
    get_monthly_summary 2026 7 7 c8cats c8spend []
      = [⟨"Food", 12000, 5000, 7000, 7000 / 6, 1000, 0, 1000⟩] ∧
    get_projection_status 2026 7 [⟨"X", 100⟩] [("X", 500)]
      = [⟨"X", 100, 500, -400, -400 / 6⟩] := by
  have h := c8_projection_math 2026 2027 7 7 c8cats c8spend [] (by decide) (by decide)
  refine ⟨⟨by decide, by decide⟩, h.2.1, h.2.2.1, h.2.2.2.1, h.2.2.2.2.2.1, ?_, ?_, ?_⟩
  · show get_projection_status 2026 7 c8cats c8spend = _
    unfold get_projection_status c8cats c8spend lookupSpent months_remaining
    norm_num [List.find?]
  · unfold get_monthly_summary get_projection_status c8cats c8spend lookupSpent
      months_remaining
    norm_num [List.find?]
  · unfold get_projection_status lookupSpent months_remaining
    norm_num [List.find?]

/-! ## GenericParser header scan (`GenericParser.parse`, importer.py 35-56) -/

/-- The generic parser's `potential_headers` keyword list (importer.py 43). -/
def potential_headers : List String :=
  ["date", "taarich", "time", "תאריך", "description", "desc", "details", "shem",
   "name", "תיאור", "פרטים", "בית עסק", "amount", "schum", "price", "cost",
   "סכום", "חיוב"]

/-- Header matches of a row in the generic parser: cells are stringified and
lowercased; each cell counts at most once. -/
def genericRowMatches (row : List Cell) : Nat :=
  row.countP (fun c => potential_headers.any (fun h => kwIn h (strLower (cellStr c))))

/-- The header scan of `GenericParser.parse` (importer.py 39-50): only the
first `min(10, len(df))` rows are examined; the first row with at least 2
matches wins. -/
def findHeaderRow (grid : List (List Cell)) : Option Nat :=
  (List.range (min 10 grid.length)).find?
    (fun i => decide (2 ≤ genericRowMatches (grid.getD i [])))

/-- The header row the file is then read with: the detected row, or the
default header row 0 (`pd.read_excel(file)`) when the scan found none. -/
def genericHeaderUsed (grid : List (List Cell)) : Nat := (findHeaderRow grid).getD 0

/-! ### Claim C10 -/

/-- Claim C10: the generic parser's header detection examines only the first
10 rows: when every row with index < 10 has fewer than 2 keyword matches and
the first qualifying row sits at an index j ≥ 10, no header row is detected
and the file is read with the default header row 0 — itself not a qualifying
header — rather than failing or finding the true header at j. -/
theorem c10_header_scan_limit (grid : List (List Cell)) (j : Nat)
    (h1 : ∀ i, i < min 10 grid.length → genericRowMatches (grid.getD i []) < 2)
    (h2 : 10 ≤ j) (h3 : j < grid.length)
    (h4 : 2 ≤ genericRowMatches (grid.getD j [])) :
    findHeaderRow grid = none ∧
    genericHeaderUsed grid = 0 ∧
    genericHeaderUsed grid ≠ j ∧
    genericRowMatches (grid.getD 0 []) < 2 := by
  have hnone : findHeaderRow grid = none := by
    unfold findHeaderRow
    rw [List.find?_eq_none]
    intro i hi
    rw [List.mem_range] at hi
    simp only [decide_eq_true_eq, not_le]
    exact h1 i hi
  have hz : genericHeaderUsed grid = 0 := by rw [genericHeaderUsed, hnone]; rfl
  refine ⟨hnone, hz, ?_, ?_⟩
  · rw [hz]
    omega
  · exact h1 0 (by omega)

/-- Ten keyword-free rows followed by a true header row at index 10, for the
claim C10 witness. -/
def c10grid : List (List Cell) :=
  [[some "x"], [some "x"], [some "x"], [some "x"], [some "x"],
   [some "x"], [some "x"], [some "x"], [some "x"], [some "x"],
   [some "date", some "amount"]]

/-- Witness for claim C10: the hypotheses hold on `c10grid` with the true
header at index 10, and the theorem applies there. -/
theorem c10_header_scan_limit_witness :
    (∀ i, i < min 10 c10grid.length → genericRowMatches (c10grid.getD i []) < 2) ∧
    10 ≤ 10 ∧ 10 < c10grid.length ∧ 2 ≤ genericRowMatches (c10grid.getD 10 []) ∧
    (findHeaderRow c10grid = none ∧ genericHeaderUsed c10grid = 0 ∧
     genericHeaderUsed c10grid ≠ 10 ∧ genericRowMatches (c10grid.getD 0 []) < 2) := by
  have h1 : ∀ i, i < min 10 c10grid.length → genericRowMatches (c10grid.getD i []) < 2 := by
    decide
  exact ⟨h1, by decide, by decide, by decide,
    c10_header_scan_limit c10grid 10 h1 (by decide) (by decide) (by decide)⟩
